import Mathlib

/-!
# Verification of the Organic Maps iCloud synchronization core

Shallow embedding of the iCloud synchronization components of the
`organicmaps` repository (reconciliation manager, local directory
monitor, conflict-resolution helpers) and proofs about the behaviour
claimed in the natural-language specification.

The definitions below are translated from
`iphone/Maps/Core/iCloud/DefaultLocalDirectoryMonitor.swift` and
`iphone/Maps/Core/iCloud/CloudStorageManager.swift` plus the cloud
monitor source.  Asynchronous dispatch is flattened to a sequential
state machine: every delegate callback, timer firing and completion
handler becomes an explicit transition on an explicit state record.
OS level file operations that may fail for environmental reasons
(coordination denials, I/O exceptions) are driven by an explicit
`Env` record of outcome flags, so that every source-level `catch`
branch is represented.
-/

set_option linter.unusedVariables false

namespace OrganicMaps

/-! ## Local directory monitor (`DefaultLocalDirectoryMonitor.swift`)

The monitor watches one directory through a dispatch source and
debounces bursts of raw change signals with a 200 ms timer.  Timers are
modelled by ghost identifiers: `timersCreated` counts every
`Timer.scheduledTimer` call and the `debounce` state stores the id and
the fire date of the single timer the source keeps alive. -/

/-- Model of `DirectoryMonitorState` from the source. -/
inductive DirectoryMonitorState
  | started
  | stopped
  | paused
deriving DecidableEq, Repr

/-- Model of `DispatchSourceDebounceState` from the source.  The dispatch-source
payload of `started`/`debounce` is the unique directory source, so only
the timer data is kept: its ghost id and its fire date (ms). -/
inductive DebounceState
  | stopped
  | started
  | debounce (timerId : Nat) (fireDate : Nat)
deriving DecidableEq, Repr

/-- A delegate emission of the local monitor: either the one-off full
listing (`didFinishGathering`) or an incremental update (`didUpdate`).
Directory contents are abstracted to a list of item identifiers. -/
inductive LocalEmission
  | didFinishGathering (contents : List Nat)
  | didUpdate (contents : List Nat)
deriving DecidableEq, Repr

/-- The debounce interval used by `queueDidFire` (0.2 s, in ms). -/
def debounceTimeIntervalMs : Nat := 200

/-- State of `DefaultLocalDirectoryMonitor`: the stored properties of
the class plus the ghost timer counter and the list of delegate
emissions produced so far. -/
structure Monitor where
  state : DirectoryMonitorState
  dispatchSourceDebounceState : DebounceState
  hasDispatchSource : Bool
  dispatchSourceIsSuspended : Bool
  dispatchSourceIsResumed : Bool
  didFinishGatheringIsCalled : Bool
  timersCreated : Nat
  emissions : List LocalEmission
deriving DecidableEq, Repr

/-- A freshly initialized monitor. -/
def initialMonitor : Monitor :=
  { state := .stopped
    dispatchSourceDebounceState := .stopped
    hasDispatchSource := false
    dispatchSourceIsSuspended := false
    dispatchSourceIsResumed := false
    didFinishGatheringIsCalled := false
    timersCreated := 0
    emissions := [] }

/-- Model of `suspendDispatchSource()`. -/
def Monitor.suspendDispatchSource (m : Monitor) : Monitor :=
  if m.dispatchSourceIsSuspended then m
  else { m with dispatchSourceIsSuspended := true, dispatchSourceIsResumed := false }

/-- Model of `resumeDispatchSource()`. -/
def Monitor.resumeDispatchSource (m : Monitor) : Monitor :=
  if m.dispatchSourceIsResumed then m
  else { m with dispatchSourceIsResumed := true, dispatchSourceIsSuspended := false }

/-- Model of `stop()`: a no-op unless the monitor is `.started`; otherwise it
suspends the source, clears the first-full-listing flag, drops the
debounce state and becomes `.stopped`. -/
def Monitor.stopMonitor (m : Monitor) : Monitor :=
  if m.state = .started then
    let m1 := m.suspendDispatchSource
    { m1 with
      didFinishGatheringIsCalled := false
      dispatchSourceDebounceState := .stopped
      state := .stopped }
  else m

/-- Model of `pause()`: a no-op unless `.started`. -/
def Monitor.pauseMonitor (m : Monitor) : Monitor :=
  if m.state = .started then
    { m.suspendDispatchSource with state := .paused }
  else m

/-- Model of `resume()`: a no-op when already `.started`. -/
def Monitor.resumeMonitor (m : Monitor) : Monitor :=
  if m.state = .started then m
  else { m.resumeDispatchSource with state := .started }

/-- Model of `start(completion:)`.  `canCreateSource` models whether
`fileManager.source(for:)` succeeds; `now` is the current time.  The
second component is the completion invocation: `none` when the
completion handler is never called, `some true` for `.success`,
`some false` for `.failure`. -/
def Monitor.startMonitor (canCreateSource : Bool) (now : Nat) (m : Monitor) :
    Monitor × Option Bool :=
  if m.state = .started then (m, none)
  else
    let nowTimerId := m.timersCreated
    let m1 := { m with timersCreated := m.timersCreated + 1 }
    if m1.hasDispatchSource then
      let m2 := { m1 with dispatchSourceDebounceState := .debounce nowTimerId now }
      (m2.resumeMonitor, some true)
    else if canCreateSource then
      ({ m1 with
          dispatchSourceDebounceState := .debounce nowTimerId now
          hasDispatchSource := true
          state := .started }, some true)
    else
      (m1.stopMonitor, some false)

/-- Model of `queueDidFire()`: the raw change-signal handler.  From `.started`
it schedules a fresh debounce timer; from `.debounce` it only pushes
back the fire date of the existing timer; from `.stopped` it does
nothing. -/
def Monitor.queueDidFire (now : Nat) (m : Monitor) : Monitor :=
  match m.dispatchSourceDebounceState with
  | .started =>
      { m with
        dispatchSourceDebounceState :=
          .debounce m.timersCreated (now + debounceTimeIntervalMs)
        timersCreated := m.timersCreated + 1 }
  | .debounce timerId _ =>
      { m with
        dispatchSourceDebounceState :=
          .debounce timerId (now + debounceTimeIntervalMs) }
  | .stopped => m

/-- Model of `debounceTimerDidFire()`: guard on `.started`, invalidate the
timer, re-read the directory (its parsed contents are the `contents`
parameter) and emit either the one-off full listing or an incremental
update.  `none` models the `fatalError` branch reached when the
debounce state holds no timer. -/
def Monitor.debounceTimerDidFire (contents : List Nat) (m : Monitor) :
    Option Monitor :=
  if m.state = .started then
    match m.dispatchSourceDebounceState with
    | .debounce _ _ =>
        let m1 := { m with dispatchSourceDebounceState := .started }
        if m1.didFinishGatheringIsCalled then
          some { m1 with emissions := m1.emissions ++ [.didUpdate contents] }
        else
          some { m1 with
                  didFinishGatheringIsCalled := true
                  emissions := m1.emissions ++ [.didFinishGathering contents] }
    | _ => none
  else some m

/-- A burst of raw change signals arriving at the given times, applied
in order through `queueDidFire`. -/
def applySignals (ts : List Nat) (m : Monitor) : Monitor :=
  ts.foldl (fun acc t => acc.queueDidFire t) m

/-! ## File names and `generateNewFileUrl` (`CloudStorageManager.swift`)

File URLs are reduced to names within one flat directory: a base name
plus an extension.  This mirrors `deletingPathExtension().lastPathComponent`
and `pathExtension` for the flat, dot-separated names the manager works
with. -/

/-- A file name split into its base and its path extension. -/
structure FileName where
  base : String
  ext : String
deriving DecidableEq, Repr

/-- The complete file name, base and extension joined by a dot. -/
def FileName.fullName (f : FileName) : String := f.base ++ "." ++ f.ext

/-- Value of a list of decimal digit characters. -/
def digitsToNat (ds : List Char) : Nat :=
  ds.foldl (fun n c => n * 10 + (c.toNat - '0'.toNat)) 0

/-- The regex match of `_(\d+)$` on a base name: if the base name ends
with an underscore followed by one or more digits, return the part
before the underscore and the numeric value of the digits. -/
def splitTrailingNumber (base : String) : Option (String × Nat) :=
  let cs := base.toList.reverse
  let ds := cs.takeWhile Char.isDigit
  if ds.isEmpty then none
  else
    match cs.drop ds.length with
    | '_' :: rest => some (String.mk rest.reverse, digitsToNat ds.reverse)
    | _ => none

/-- The base-name step of `generateNewFileUrl`: increment an existing
trailing `_N` suffix, or append `_1` when there is none
(`replacingCharacters` keeps the underscore and substitutes the
incremented number). -/
def nextBaseName (base : String) : String :=
  match splitTrailingNumber base with
  | some (p, n) => p ++ "_" ++ toString (n + 1)
  | none => base ++ "_1"

/-- Model of `generateNewFileUrl(for:addDeviceName:)`.  `existingNames` is the
set of full file names already present in the directory
(`fileManager.fileExists`).  The source recursion continues until the
candidate name is free; this cannot diverge on a finite directory, and
is given explicit `fuel` here, `none` standing for exhausted fuel.
Note that the recursive collision retry passes `addDeviceName = false`,
exactly as the source call `generateNewFileUrl(for: newFileUrl)` does. -/
def generateNewFileUrl (fuel : Nat) (existingNames : List String) (f : FileName)
    (addDeviceName : Bool) (deviceName : String) : Option FileName :=
  match fuel with
  | 0 => none
  | fuel + 1 =>
    let finalBaseName := nextBaseName f.base
    let newBase := if addDeviceName then finalBaseName ++ "_" ++ deviceName else finalBaseName
    let newF : FileName := ⟨newBase, f.ext⟩
    if newF.fullName ∈ existingNames then
      generateNewFileUrl fuel existingNames newF false deviceName
    else some newF

/-! ## Cloud file versions (`resolveVersionsConflict`) -/

/-- An `NSFileVersion` of a cloud item: its (optional) modification
date and an abstract content identifier. -/
structure FileVersion where
  modificationDate : Option Int
  content : Nat
deriving DecidableEq, Repr

/-- The comparator passed to `sorted` in `resolveVersionsConflict`:
`date1 > date2`, and `false` whenever either date is missing. -/
def versionIsNewer (v1 v2 : FileVersion) : Bool :=
  match v1.modificationDate, v2.modificationDate with
  | some d1, some d2 => decide (d2 < d1)
  | _, _ => false

/-- Insert one version into an already sorted (descending) list. -/
def insertVersion (v : FileVersion) : List FileVersion → List FileVersion
  | [] => [v]
  | w :: ws => if versionIsNewer v w then v :: w :: ws else w :: insertVersion v ws

/-- Model of `versionsInConflict.sorted` with the descending-date comparator. -/
def sortVersionsDesc : List FileVersion → List FileVersion
  | [] => []
  | v :: vs => insertVersion v (sortVersionsDesc vs)

/-! ## Errors and results (`CloudStorageManager.swift`) -/

/-- Model of `SynchronizationError`: exactly the cases the exhaustive `switch`
in `processError` distinguishes. -/
inductive SynchronizationError
  | fileUnavailable
  | fileNotUploadedDueToQuota
  | ubiquityServerNotAvailable
  | iCloudIsNotAvailable
  | containerNotFound
deriving DecidableEq, Repr

/-- The fatal-to-session errors: the cases on which `processError`
stops the whole synchronization. -/
def SynchronizationError.isFatal : SynchronizationError → Bool
  | .iCloudIsNotAvailable | .containerNotFound => true
  | _ => false

/-- An error value flowing through completion handlers: either a
`SynchronizationError` or some other OS-level `Error` (coordination
failures, file I/O exceptions), which `processError` only logs. -/
inductive ErrorValue
  | sync (e : SynchronizationError)
  | os
deriving DecidableEq, Repr

/-- Model of `VoidResult`. -/
inductive VoidResult
  | success
  | failure (e : ErrorValue)
deriving DecidableEq, Repr

/-! ## Metadata items and directory contents -/

/-- Model of `CloudMetadataItem`, reduced to the fields the manager actions
read: the file name, an abstract content identifier, the last
modification date (seconds since epoch) and the trash marker. -/
structure CloudMetadataItem where
  fileName : FileName
  content : Nat
  lastModificationDate : Int
  isRemoved : Bool
deriving DecidableEq, Repr

/-- Model of `LocalMetadataItem`, reduced likewise. -/
structure LocalMetadataItem where
  fileName : FileName
  content : Nat
  lastModificationDate : Int
deriving DecidableEq, Repr

/-- One file of a directory on disk: its full name, its content and
its content modification date. -/
structure FileEntry where
  name : String
  content : Nat
  modificationDate : Int
deriving DecidableEq, Repr

/-- Environment of one action execution: the outcome of each OS-level
operation that can fail for reasons outside the synchronization state,
plus the device name and the fuel for `generateNewFileUrl`. -/
structure Env where
  fetchCloudDirOk : Bool := true
  coordinationOk : Bool := true
  readOk : Bool := true
  writeOk : Bool := true
  removeOk : Bool := true
  dedupOk : Bool := true
  trashOk : Bool := true
  copyOk : Bool := true
  downloadOk : Bool := true
  isMac : Bool := false
  fuel : Nat := 0
  deviceName : String := ""
deriving DecidableEq, Repr

/-- Modelled from the spec: `CloudMetadataItem.relatedLocalItemUrl(to:)`
is not among the provided sources; per the spec the cloud item is
written "into the local directory under the same fileName", so the
related local URL is the local directory joined with the full file
name of the item. -/
def relatedLocalItemName (item : CloudMetadataItem) : String := item.fileName.fullName

/-- Writing a file into a directory replaces any entry under the same
name (directories hold at most one entry per name). -/
def writeFileEntry (fs : List FileEntry) (f : FileEntry) : List FileEntry :=
  fs.filter (fun g => g.name ≠ f.name) ++ [f]

/-! ## Action implementations (`CloudStorageManager.swift`) -/

/-- Model of `writeToLocalContainer`: coordinated read of the bytes of the
cloud item and write into the local directory under the same file
name; `Data.write(to:options:lastModificationDate:)` stamps the
written file with the `lastModificationDate` of the cloud item.  Returns the new local
directory, the completion result and whether
`needsToReloadBookmarksOnTheMap` was set. -/
def writeToLocalContainer (item : CloudMetadataItem) (env : Env)
    (fs : List FileEntry) : List FileEntry × VoidResult × Bool :=
  if env.coordinationOk then
    if env.readOk then
      if env.writeOk then
        (writeFileEntry fs
            ⟨relatedLocalItemName item, item.content, item.lastModificationDate⟩,
         .success, true)
      else (fs, .failure .os, false)
    else (fs, .failure .os, false)
  else (fs, .failure .os, false)

/-- Model of `removeFromTheLocalContainer`: if no file under the item name
exists locally, complete with success without touching the directory;
otherwise delete it (`removeItem` may fail at the OS level). -/
def removeFromTheLocalContainer (item : CloudMetadataItem) (env : Env)
    (fs : List FileEntry) : List FileEntry × VoidResult × Bool :=
  let target := relatedLocalItemName item
  if fs.any (fun g => g.name = target) then
    if env.removeOk then (fs.filter (fun g => g.name ≠ target), .success, true)
    else (fs, .failure .os, false)
  else (fs, .success, false)

/-- Model of `startDownloading`: ask the cloud store to materialize the item;
only the completion outcome matters to the manager state. -/
def startDownloading (item : CloudMetadataItem) (env : Env) : VoidResult :=
  if env.downloadOk then .success else .failure .os

/-- Model of `writeToCloudContainer`: resolve the cloud root
(`fetchUbiquityDirectoryUrl` fails with `.containerNotFound`), then a
coordinated read of the local file and write to the corresponding
cloud path, preserving the local modification date. -/
def writeToCloudContainer (item : LocalMetadataItem) (env : Env)
    (cloud : List FileEntry) : List FileEntry × VoidResult :=
  if env.fetchCloudDirOk then
    if env.coordinationOk then
      if env.readOk then
        if env.writeOk then
          (writeFileEntry cloud
              ⟨item.fileName.fullName, item.content, item.lastModificationDate⟩,
           .success)
        else (cloud, .failure .os)
      else (cloud, .failure .os)
    else (cloud, .failure .os)
  else (cloud, .failure (.sync .containerNotFound))

/-- Modelled from the spec: `FileManager.trashItem` assigns the
trashed entry a name the caller cannot control; it keeps the original
file name when the trash holds no same-named entry, and otherwise
picks some other, distinct name.  In the manager the de-duplication
step always frees the name first, so the collision branch is never
taken there. -/
def trashAssignedName (name : String) (trash : List String) : String :=
  if name ∈ trash then name ++ " 2" else name

/-- Model of `removeFromCloudContainer`: resolve the cloud root, run
`removeDuplicatedFileFromTrashDirectoryIfNeeded` (skipped entirely on
macOS, where the cloud trash cannot be enumerated), then move the item
to the trash rather than hard-delete it.  On macOS the system places
the trashed item outside the cloud trash directory.  Returns the new
cloud directory, the new cloud trash listing and the completion
result. -/
def removeFromCloudContainer (item : LocalMetadataItem) (env : Env)
    (cloud : List FileEntry) (trash : List String) :
    List FileEntry × List String × VoidResult :=
  if env.fetchCloudDirOk then
    let name := item.fileName.fullName
    if env.isMac then
      if cloud.any (fun g => g.name = name) then
        if env.trashOk then
          (cloud.filter (fun g => g.name ≠ name), trash, .success)
        else (cloud, trash, .failure .os)
      else (cloud, trash, .failure .os)
    else if env.dedupOk then
      let trash1 := if name ∈ trash then trash.erase name else trash
      if cloud.any (fun g => g.name = name) then
        if env.trashOk then
          (cloud.filter (fun g => g.name ≠ name),
           trash1 ++ [trashAssignedName name trash1], .success)
        else (cloud, trash1, .failure .os)
      else (cloud, trash1, .failure .os)
    else (cloud, trash, .failure .os)
  else (cloud, trash, .failure (.sync .containerNotFound))

/-- Model of `resolveVersionsConflict`: enumerate the unresolved conflict
versions of the item (the association list `versions`; a missing entry
models a `nil` answer of `unresolvedConflictVersionsOfItem`, a missing
file a `nil` `currentVersionOfItem`), sort them by descending
modification date, pick the first as canonical, copy the current
on-disk content to a fresh `_N`-suffixed name, replace the item with
the content of the canonical version and remove all other versions.  `none`
models exhausted `generateNewFileUrl` fuel, which the unbounded source
recursion never hits.  The final component reports whether
`needsToReloadBookmarksOnTheMap` was set. -/
def resolveVersionsConflict (item : CloudMetadataItem) (env : Env)
    (files : List FileEntry) (versions : List (String × List FileVersion)) :
    Option (List FileEntry × List (String × List FileVersion) × VoidResult × Bool) :=
  let name := item.fileName.fullName
  match (versions.find? (fun p => p.1 = name)).map (fun p => p.2) with
  | none => some (files, versions, .success, false)
  | some vs =>
    match files.find? (fun g => g.name = name) with
    | none => some (files, versions, .success, false)
    | some cur =>
      match sortVersionsDesc vs with
      | [] => some (files, versions, .success, false)
      | latest :: _ =>
        match generateNewFileUrl env.fuel (files.map (fun g => g.name))
            item.fileName false env.deviceName with
        | none => none
        | some target =>
          if env.coordinationOk then
            if target.fullName ∈ files.map (fun g => g.name) then
              some (files, versions, .success, true)
            else if env.copyOk then
              some
                ((files ++ [(⟨target.fullName, cur.content, cur.modificationDate⟩ : FileEntry)]).map
                    (fun g => if g.name = name then { g with content := latest.content } else g),
                 versions.filter (fun p => p.1 ≠ name),
                 .success, true)
            else some (files, versions, .failure .os, false)
          else some (files, versions, .failure .os, false)

/-- Model of `resolveInitialSynchronizationConflict`: copy the local file to
`generateNewFileUrl(for:addDeviceName: true)` inside the local
directory.  `none` models exhausted fuel. -/
def resolveInitialSynchronizationConflict (item : LocalMetadataItem) (env : Env)
    (fs : List FileEntry) : Option (List FileEntry × VoidResult) :=
  match generateNewFileUrl env.fuel (fs.map (fun g => g.name))
      item.fileName true env.deviceName with
  | none => none
  | some target =>
    if env.copyOk then
      some (fs ++ [⟨target.fullName, item.content, item.lastModificationDate⟩], .success)
    else some (fs, .failure .os)

/-! ## The manager (`CloudStorageManager`) -/

/-- The cloud directory monitor, reduced to the fields
`stopSynchronization` touches: the optional metadata query with its
started flag, and the paused flag (`stopQuery` drops the query and
pauses). -/
structure CloudMonitor where
  metadataQueryIsStarted : Option Bool
  isPaused : Bool
deriving DecidableEq, Repr

/-- Model of `isStarted`: `metadataQuery?.isStarted ?? false`. -/
def CloudMonitor.isStarted (c : CloudMonitor) : Bool :=
  c.metadataQueryIsStarted.getD false

/-- Model of `stop()` of the cloud monitor = `stopQuery()`. -/
def CloudMonitor.stopMonitor (c : CloudMonitor) : CloudMonitor :=
  { metadataQueryIsStarted := none, isPaused := true }

/-- Model of `OutgoingEvent`: the action variants dispatched by
`executeEvent`. -/
inductive OutgoingEvent
  | createLocalItem (item : CloudMetadataItem)
  | updateLocalItem (item : CloudMetadataItem)
  | removeLocalItem (item : CloudMetadataItem)
  | startDownloading (item : CloudMetadataItem)
  | createCloudItem (item : LocalMetadataItem)
  | updateCloudItem (item : LocalMetadataItem)
  | removeCloudItem (item : LocalMetadataItem)
  | resolveVersionsConflict (item : CloudMetadataItem)
  | resolveInitialSynchronizationConflict (item : LocalMetadataItem)
  | didFinishInitialSynchronization
  | didReceiveError (e : ErrorValue)
deriving DecidableEq, Repr

/-- The `CloudStorageManager` state: the two monitors, the exposed
error with its observer-notification trace, the processing flags, the
durable initial-synchronization flag, and the file collections the
actions operate on. -/
structure ManagerState where
  localMonitor : Monitor
  cloudMonitor : CloudMonitor
  synchronizationError : Option SynchronizationError
  errorNotifications : List (Option SynchronizationError)
  synchronizationIsInProcess : Bool
  needsToReloadBookmarksOnTheMap : Bool
  stateManagerWasReset : Bool
  didFinishInitialSynchronizationFlag : Bool
  localContainer : List FileEntry
  cloudContainer : List FileEntry
  cloudVersions : List (String × List FileVersion)
  cloudTrash : List String
deriving DecidableEq, Repr

/-- Assignment to the `synchronizationError` property; its `didSet`
observer notifies every registered observer, recorded in
`errorNotifications`. -/
def ManagerState.setSynchronizationError (s : ManagerState)
    (e : Option SynchronizationError) : ManagerState :=
  { s with
    synchronizationError := e
    errorNotifications := s.errorNotifications ++ [e] }

/-- Model of `stopSynchronization()`: stop both monitors, clear the exposed
error (notifying observers) and reset the synchronization state
manager. -/
def stopSynchronization (s : ManagerState) : ManagerState :=
  let s1 := { s with
                localMonitor := s.localMonitor.stopMonitor
                cloudMonitor := s.cloudMonitor.stopMonitor }
  let s2 := s1.setSynchronizationError none
  { s2 with stateManagerWasReset := true }

/-- Model of `processError`: a `SynchronizationError` is classified by the
source `switch` — the transient cases fall through, the fatal cases
stop the whole synchronization — and is then stored as the exposed
error; any other error is only logged. -/
def processError (e : ErrorValue) (s : ManagerState) : ManagerState :=
  match e with
  | .sync se =>
      let s1 := if se.isFatal then stopSynchronization s else s
      s1.setSynchronizationError (some se)
  | .os => s

/-- Model of `completionHandler(result:)`: route failures to `processError`. -/
def completionHandler (r : VoidResult) (s : ManagerState) : ManagerState :=
  match r with
  | .success => s
  | .failure e => processError e s

/-- Model of `executeEvent`: dispatch one outgoing event to its action and feed
the completion result through `completionHandler`. -/
def executeEvent (e : OutgoingEvent) (env : Env) (s : ManagerState) : ManagerState :=
  match e with
  | .createLocalItem item | .updateLocalItem item =>
      match writeToLocalContainer item env s.localContainer with
      | (fs, r, reload) =>
          completionHandler r
            { s with
              localContainer := fs
              needsToReloadBookmarksOnTheMap := s.needsToReloadBookmarksOnTheMap || reload }
  | .removeLocalItem item =>
      match removeFromTheLocalContainer item env s.localContainer with
      | (fs, r, reload) =>
          completionHandler r
            { s with
              localContainer := fs
              needsToReloadBookmarksOnTheMap := s.needsToReloadBookmarksOnTheMap || reload }
  | .startDownloading item =>
      completionHandler (startDownloading item env) s
  | .createCloudItem item | .updateCloudItem item =>
      match writeToCloudContainer item env s.cloudContainer with
      | (cs, r) => completionHandler r { s with cloudContainer := cs }
  | .removeCloudItem item =>
      match removeFromCloudContainer item env s.cloudContainer s.cloudTrash with
      | (cs, tr, r) =>
          completionHandler r { s with cloudContainer := cs, cloudTrash := tr }
  | .resolveVersionsConflict item =>
      match resolveVersionsConflict item env s.cloudContainer s.cloudVersions with
      | none => s
      | some (cs, vers, r, reload) =>
          completionHandler r
            { s with
              cloudContainer := cs
              cloudVersions := vers
              needsToReloadBookmarksOnTheMap := s.needsToReloadBookmarksOnTheMap || reload }
  | .resolveInitialSynchronizationConflict item =>
      match resolveInitialSynchronizationConflict item env s.localContainer with
      | none => s
      | some (fs, r) => completionHandler r { s with localContainer := fs }
  | .didFinishInitialSynchronization =>
      { s with didFinishInitialSynchronizationFlag := true }
  | .didReceiveError err => processError err s

/-- Model of `processEvents`: mark synchronization in process, execute each
event in order on the serial background queue, then — in the final
queued block — clear the exposed error when the batch was empty, drop
the in-process flag and reload bookmarks when needed. -/
def processEvents (events : List (OutgoingEvent × Env)) (s : ManagerState) : ManagerState :=
  let s0 := { s with synchronizationIsInProcess := true }
  let s1 := events.foldl (fun acc pe => executeEvent pe.1 pe.2 acc) s0
  let s2 := if events.isEmpty then s1.setSynchronizationError none else s1
  let s3 := { s2 with synchronizationIsInProcess := false }
  if s3.needsToReloadBookmarksOnTheMap then
    { s3 with needsToReloadBookmarksOnTheMap := false }
  else s3

/-- A concrete monitor execution: fresh start, one timer firing (the
full listing), then pause() followed by stop(). -/
def pausedThenStoppedRun : Monitor :=
  (((Monitor.startMonitor true 0 initialMonitor).1.debounceTimerDidFire [1]).getD
      initialMonitor).pauseMonitor.stopMonitor

/-- The same execution continued: start() again and let the debounce
timer fire once more. -/
def pausedThenStoppedRunRestartFire : Option Monitor :=
  (pausedThenStoppedRun.startMonitor true 10).1.debounceTimerDidFire [2]

/-- The modification date of a version, with missing dates read as 0
(versions handled by the claims all carry a date). -/
def versionDate (v : FileVersion) : Int := v.modificationDate.getD 0

/-- A concrete manager state with a live cloud query, used to evaluate
the theorems at explicit inputs. -/
def initialManagerState : ManagerState :=
  { localMonitor := initialMonitor
    cloudMonitor := { metadataQueryIsStarted := some true, isPaused := false }
    synchronizationError := none
    errorNotifications := []
    synchronizationIsInProcess := false
    needsToReloadBookmarksOnTheMap := false
    stateManagerWasReset := false
    didFinishInitialSynchronizationFlag := false
    localContainer := []
    cloudContainer := []
    cloudVersions := []
    cloudTrash := [] }

/-- A concrete conflicted cloud item: `a.kml`. -/
def conflictItem : CloudMetadataItem :=
  { fileName := ⟨"a", "kml"⟩, content := 33, lastModificationDate := 5, isRemoved := false }

/-- A concrete environment for the conflict runs. -/
def conflictEnv : Env := { fuel := 5 }

/-- The cloud directory holding the current `a.kml`. -/
def conflictFiles : List FileEntry := [⟨"a.kml", 33, 5⟩]

/-- Two unresolved conflict versions of `a.kml` with distinct dates:
version content 11 at date 100 and version content 22 at date 200. -/
def conflictVersions : List (String × List FileVersion) :=
  [("a.kml", [⟨some 100, 11⟩, ⟨some 200, 22⟩])]

/-- A concrete local item for the initial-synchronization conflict. -/
def initialConflictItem : LocalMetadataItem :=
  { fileName := ⟨"a", "kml"⟩, content := 7, lastModificationDate := 100 }

/-- A concrete environment carrying the device name. -/
def initialConflictEnv : Env := { fuel := 5, deviceName := "iPhone" }

/-- The local directory holding `a.kml`. -/
def initialConflictFiles : List FileEntry := [⟨"a.kml", 7, 100⟩]

/-! ## Lemmas about the local monitor -/

/-- A raw signal arriving while a debounce timer is pending only moves
the fire date of that same timer. -/
theorem queueDidFire_of_debounce (m : Monitor) (tid fd now : Nat)
    (h : m.dispatchSourceDebounceState = .debounce tid fd) :
    m.queueDidFire now =
      { m with dispatchSourceDebounceState :=
          .debounce tid (now + debounceTimeIntervalMs) } := by
  simp [Monitor.queueDidFire, h]

/-- A raw signal arriving with no pending timer schedules exactly one
fresh timer. -/
theorem queueDidFire_of_started (m : Monitor) (now : Nat)
    (h : m.dispatchSourceDebounceState = .started) :
    m.queueDidFire now =
      { m with
          dispatchSourceDebounceState :=
            .debounce m.timersCreated (now + debounceTimeIntervalMs)
          timersCreated := m.timersCreated + 1 } := by
  simp [Monitor.queueDidFire, h]

/-- A whole burst of raw signals arriving while a debounce timer is
pending keeps that same timer and changes nothing but its fire date. -/
theorem applySignals_of_debounce (ts : List Nat) :
    ∀ (m : Monitor) (tid fd : Nat),
      m.dispatchSourceDebounceState = .debounce tid fd →
      ∃ fd', applySignals ts m =
        { m with dispatchSourceDebounceState := .debounce tid fd' } := by
  induction ts with
  | nil =>
      intro m tid fd h
      refine ⟨fd, ?_⟩
      rw [← h]
      rfl
  | cons t ts ih =>
      intro m tid fd h
      have hstep : applySignals (t :: ts) m = applySignals ts (m.queueDidFire t) := rfl
      rw [hstep, queueDidFire_of_debounce m tid fd t h]
      obtain ⟨fd', heq⟩ :=
        ih { m with dispatchSourceDebounceState :=
              .debounce tid (t + debounceTimeIntervalMs) }
          tid (t + debounceTimeIntervalMs) rfl
      exact ⟨fd', by rw [heq]⟩

/-- When the monitor is started and holds a pending debounce timer,
the timer firing succeeds and produces exactly one delegate
emission. -/
theorem debounceTimerDidFire_emits (m : Monitor) (tid fd : Nat) (c : List Nat)
    (hs : m.state = .started) (hd : m.dispatchSourceDebounceState = .debounce tid fd) :
    ∃ m', m.debounceTimerDidFire c = some m' ∧
      m'.emissions.length = m.emissions.length + 1 := by
  cases hflag : m.didFinishGatheringIsCalled with
  | true =>
      refine ⟨{ m with
                  dispatchSourceDebounceState := .started
                  emissions := m.emissions ++ [.didUpdate c] }, ?_, ?_⟩
      · simp [Monitor.debounceTimerDidFire, hd, hs, hflag]
      · simp
  | false =>
      refine ⟨{ m with
                  dispatchSourceDebounceState := .started
                  didFinishGatheringIsCalled := true
                  emissions := m.emissions ++ [.didFinishGathering c] }, ?_, ?_⟩
      · simp [Monitor.debounceTimerDidFire, hd, hs, hflag]
      · simp

/-! ## Claim theorems: local monitor -/

/-- C3: a burst of M >= 1 raw change signals delivered to a started
monitor whose debounce machinery is live coalesces: after the burst a
single pending debounce timer remains, at most one timer was created
by the whole burst, later signals only push back the fire date of the
one existing timer, no emission is queued by the signals themselves,
and when the timer finally fires uninterrupted exactly one downstream
emission results. -/
theorem C3_burst_signals_coalesce (m : Monitor) (ts : List Nat)
    (hstate : m.state = .started)
    (hdb : m.dispatchSourceDebounceState ≠ .stopped)
    (hne : ts ≠ []) :
    (∃ tid fd, (applySignals ts m).dispatchSourceDebounceState = .debounce tid fd) ∧
    (applySignals ts m).timersCreated ≤ m.timersCreated + 1 ∧
    (applySignals ts m).emissions = m.emissions ∧
    (applySignals ts m).state = .started ∧
    (∀ (m0 : Monitor) (tid fd now : Nat),
      m0.dispatchSourceDebounceState = .debounce tid fd →
      m0.queueDidFire now =
        { m0 with dispatchSourceDebounceState :=
            .debounce tid (now + debounceTimeIntervalMs) }) ∧
    (∀ c, ∃ m', (applySignals ts m).debounceTimerDidFire c = some m' ∧
      m'.emissions.length = m.emissions.length + 1) := by
  have hmain : ∃ tid fd', applySignals ts m =
      { m with
          dispatchSourceDebounceState := .debounce tid fd'
          timersCreated := (applySignals ts m).timersCreated } ∧
      (applySignals ts m).timersCreated ≤ m.timersCreated + 1 := by
    cases hcase : m.dispatchSourceDebounceState with
    | stopped => exact absurd hcase hdb
    | started =>
        obtain ⟨t, ts', rfl⟩ : ∃ t ts', ts = t :: ts' := by
          cases ts with
          | nil => exact absurd rfl hne
          | cons t ts' => exact ⟨t, ts', rfl⟩
        have hstep : applySignals (t :: ts') m = applySignals ts' (m.queueDidFire t) := rfl
        rw [hstep, queueDidFire_of_started m t hcase]
        obtain ⟨fd', heq⟩ :=
          applySignals_of_debounce ts'
            { m with
                dispatchSourceDebounceState :=
                  .debounce m.timersCreated (t + debounceTimeIntervalMs)
                timersCreated := m.timersCreated + 1 }
            m.timersCreated (t + debounceTimeIntervalMs) rfl
        rw [heq]
        exact ⟨m.timersCreated, fd', rfl, Nat.le_refl _⟩
    | debounce tid fd =>
        obtain ⟨fd', heq⟩ := applySignals_of_debounce ts m tid fd hcase
        rw [heq]
        exact ⟨tid, fd', rfl, Nat.le_succ _⟩
  obtain ⟨tid, fd', heq, hle⟩ := hmain
  refine ⟨⟨tid, fd', by rw [heq]⟩, hle, by rw [heq], by rw [heq]; exact hstate,
    fun m0 t f n h => queueDidFire_of_debounce m0 t f n h, fun c => ?_⟩
  have hs' : (applySignals ts m).state = .started := by rw [heq]; exact hstate
  have hd' : (applySignals ts m).dispatchSourceDebounceState = .debounce tid fd' := by
    rw [heq]
  obtain ⟨m', hfire, hlen⟩ :=
    debounceTimerDidFire_emits (applySignals ts m) tid fd' c hs' hd'
  have hemis : (applySignals ts m).emissions = m.emissions := by rw [heq]
  exact ⟨m', hfire, by rw [hlen, hemis]⟩

/-- C3 witness: a concrete burst of three signals on a freshly started
monitor. -/
theorem C3_witness :
    (∃ tid fd,
      (applySignals [1, 2, 3] (Monitor.startMonitor true 0 initialMonitor).1).dispatchSourceDebounceState =
        .debounce tid fd) ∧
    (applySignals [1, 2, 3] (Monitor.startMonitor true 0 initialMonitor).1).timersCreated ≤
      (Monitor.startMonitor true 0 initialMonitor).1.timersCreated + 1 ∧
    (applySignals [1, 2, 3] (Monitor.startMonitor true 0 initialMonitor).1).emissions =
      (Monitor.startMonitor true 0 initialMonitor).1.emissions ∧
    (applySignals [1, 2, 3] (Monitor.startMonitor true 0 initialMonitor).1).state = .started ∧
    (∀ (m0 : Monitor) (tid fd now : Nat),
      m0.dispatchSourceDebounceState = .debounce tid fd →
      m0.queueDidFire now =
        { m0 with dispatchSourceDebounceState :=
            .debounce tid (now + debounceTimeIntervalMs) }) ∧
    (∀ c, ∃ m',
      (applySignals [1, 2, 3] (Monitor.startMonitor true 0 initialMonitor).1).debounceTimerDidFire c =
        some m' ∧
      m'.emissions.length =
        (Monitor.startMonitor true 0 initialMonitor).1.emissions.length + 1) :=
  C3_burst_signals_coalesce (Monitor.startMonitor true 0 initialMonitor).1 [1, 2, 3]
    (by decide) (by decide) (by decide)

/-- C4 counterexample: the claim says stop() clears the
first-full-listing flag in every state, including while paused.  On
the source, stop() guards on the started state: after start, one
timer firing (full listing emitted), then pause() and stop(), the flag
is still set and the monitor is still paused; after the next start()
the first firing emits didUpdate, not didFinishGathering. -/
theorem C4_counterexample :
    ((Monitor.startMonitor true 0 initialMonitor).1.debounceTimerDidFire [1]).isSome = true ∧
    pausedThenStoppedRun.didFinishGatheringIsCalled = true ∧
    pausedThenStoppedRun.state = .paused ∧
    pausedThenStoppedRunRestartFire.map (fun m => m.emissions) =
      some [.didFinishGathering [1], .didUpdate [2]] := by
  decide

/-- C4 (amended): stop() clears the first-full-listing flag only when
the monitor is started; while paused (or stopped) stop() is a complete
no-op that preserves the flag and the state; pause() and resume()
always preserve the flag. -/
theorem C4_stop_clears_flag_only_when_started (m : Monitor) :
    (m.state = .started → m.stopMonitor.didFinishGatheringIsCalled = false) ∧
    (m.state ≠ .started → m.stopMonitor = m) ∧
    m.pauseMonitor.didFinishGatheringIsCalled = m.didFinishGatheringIsCalled ∧
    m.resumeMonitor.didFinishGatheringIsCalled = m.didFinishGatheringIsCalled := by
  refine ⟨fun h => ?_, fun h => ?_, ?_, ?_⟩
  · simp [Monitor.stopMonitor, h]
  · simp [Monitor.stopMonitor, h]
  · unfold Monitor.pauseMonitor Monitor.suspendDispatchSource
    split
    · split <;> rfl
    · rfl
  · unfold Monitor.resumeMonitor Monitor.resumeDispatchSource
    split
    · rfl
    · split <;> rfl

/-- C4 witness: the amended behaviour at a started and at a stopped
monitor. -/
theorem C4_witness :
    ((Monitor.startMonitor true 0 initialMonitor).1.stopMonitor.didFinishGatheringIsCalled = false) ∧
    initialMonitor.stopMonitor = initialMonitor :=
  ⟨(C4_stop_clears_flag_only_when_started (Monitor.startMonitor true 0 initialMonitor).1).1
      (by decide),
   (C4_stop_clears_flag_only_when_started initialMonitor).2.1 (by decide)⟩

/-- C10: calling start(completion:) on an already started monitor is a
complete no-op: the state, the first-full-listing flag and the
emissions are unchanged, and the completion handler is never
invoked. -/
theorem C10_start_on_started_is_noop (canCreateSource : Bool) (now : Nat) (m : Monitor)
    (h : m.state = .started) :
    m.startMonitor canCreateSource now = (m, none) := by
  simp [Monitor.startMonitor, h]

/-- C10 witness: starting an already started monitor. -/
theorem C10_witness :
    (Monitor.startMonitor true 0 initialMonitor).1.startMonitor false 5 =
      ((Monitor.startMonitor true 0 initialMonitor).1, none) :=
  C10_start_on_started_is_noop false 5 (Monitor.startMonitor true 0 initialMonitor).1
    (by decide)

/-! ## Claim theorems: error taxonomy -/

/-- C5: a fatal-to-session synchronization error (cloud unavailable,
container not found) stops the whole pipeline — the cloud query is
dropped and a started local monitor is stopped — and is then exposed;
a transient error (file unavailable, quota, ubiquity server
unreachable) only sets the exposed error, notifying observers, and
changes nothing else: synchronization keeps running. -/
theorem C5_fatal_stops_transient_surfaces (s : ManagerState) (se : SynchronizationError) :
    (se.isFatal = true →
      (processError (.sync se) s).cloudMonitor.isStarted = false ∧
      (s.localMonitor.state = .started →
        (processError (.sync se) s).localMonitor.state = .stopped) ∧
      (processError (.sync se) s).synchronizationError = some se) ∧
    (se.isFatal = false →
      processError (.sync se) s =
        { s with
            synchronizationError := some se
            errorNotifications := s.errorNotifications ++ [some se] }) := by
  refine ⟨fun hf => ⟨?_, fun hl => ?_, ?_⟩, fun hf => ?_⟩
  · simp [processError, hf, stopSynchronization, ManagerState.setSynchronizationError,
      CloudMonitor.stopMonitor, CloudMonitor.isStarted]
  · simp [processError, hf, stopSynchronization, ManagerState.setSynchronizationError,
      Monitor.stopMonitor, hl]
  · simp [processError, hf, stopSynchronization, ManagerState.setSynchronizationError]
  · simp [processError, hf, ManagerState.setSynchronizationError]

/-- C5 witness: the fatal case at cloud-unavailable and the transient
case at file-unavailable, on a concrete running manager. -/
theorem C5_witness :
    (processError (.sync .iCloudIsNotAvailable) initialManagerState).cloudMonitor.isStarted = false ∧
    processError (.sync .fileUnavailable) initialManagerState =
      { initialManagerState with
          synchronizationError := some .fileUnavailable
          errorNotifications := initialManagerState.errorNotifications ++ [some .fileUnavailable] } :=
  ⟨((C5_fatal_stops_transient_surfaces initialManagerState .iCloudIsNotAvailable).1 rfl).1,
   (C5_fatal_stops_transient_surfaces initialManagerState .fileUnavailable).2 rfl⟩

/-! ## Error-state preservation along a batch -/

/-- Model of `processError` never clears an exposed error: it either leaves the
field alone or ends by storing the incoming error. -/
theorem processError_keeps_error_present (e : ErrorValue) (s : ManagerState)
    (h : s.synchronizationError.isSome = true) :
    (processError e s).synchronizationError.isSome = true := by
  cases e with
  | os => exact h
  | sync se =>
      cases hf : se.isFatal <;>
        simp [processError, hf, stopSynchronization, ManagerState.setSynchronizationError]

/-- Model of `completionHandler` never clears an exposed error. -/
theorem completionHandler_keeps_error_present (r : VoidResult) (s : ManagerState)
    (h : s.synchronizationError.isSome = true) :
    (completionHandler r s).synchronizationError.isSome = true := by
  cases r with
  | success => exact h
  | failure e => exact processError_keeps_error_present e s h

/-- No single executed event clears an exposed error. -/
theorem executeEvent_keeps_error_present (e : OutgoingEvent) (env : Env) (s : ManagerState)
    (h : s.synchronizationError.isSome = true) :
    (executeEvent e env s).synchronizationError.isSome = true := by
  cases e with
  | createLocalItem item | updateLocalItem item =>
      rcases hval : writeToLocalContainer item env s.localContainer with ⟨fs, r, reload⟩
      simp only [executeEvent, hval]
      exact completionHandler_keeps_error_present _ _ h
  | removeLocalItem item =>
      rcases hval : removeFromTheLocalContainer item env s.localContainer with ⟨fs, r, reload⟩
      simp only [executeEvent, hval]
      exact completionHandler_keeps_error_present _ _ h
  | startDownloading item =>
      simp only [executeEvent]
      exact completionHandler_keeps_error_present _ _ h
  | createCloudItem item | updateCloudItem item =>
      rcases hval : writeToCloudContainer item env s.cloudContainer with ⟨cs, r⟩
      simp only [executeEvent, hval]
      exact completionHandler_keeps_error_present _ _ h
  | removeCloudItem item =>
      rcases hval : removeFromCloudContainer item env s.cloudContainer s.cloudTrash with ⟨cs, tr, r⟩
      simp only [executeEvent, hval]
      exact completionHandler_keeps_error_present _ _ h
  | resolveVersionsConflict item =>
      rcases hval : resolveVersionsConflict item env s.cloudContainer s.cloudVersions with
        _ | ⟨cs, vers, r, reload⟩
      · simp only [executeEvent, hval]
        exact h
      · simp only [executeEvent, hval]
        exact completionHandler_keeps_error_present _ _ h
  | resolveInitialSynchronizationConflict item =>
      rcases hval : resolveInitialSynchronizationConflict item env s.localContainer with
        _ | ⟨fs, r⟩
      · simp only [executeEvent, hval]
        exact h
      · simp only [executeEvent, hval]
        exact completionHandler_keeps_error_present _ _ h
  | didFinishInitialSynchronization => exact h
  | didReceiveError err => exact processError_keeps_error_present err s h

/-- Executing a whole list of events never clears an exposed error. -/
theorem foldl_executeEvent_keeps_error_present (events : List (OutgoingEvent × Env)) :
    ∀ s : ManagerState, s.synchronizationError.isSome = true →
      (events.foldl (fun acc pe => executeEvent pe.1 pe.2 acc) s).synchronizationError.isSome = true := by
  induction events with
  | nil => intro s h; exact h
  | cons pe evs ih =>
      intro s h
      exact ih _ (executeEvent_keeps_error_present pe.1 pe.2 s h)

/-- An empty batch ends in the error-clearing branch. -/
theorem processEvents_nil_error (s : ManagerState) :
    (processEvents [] s).synchronizationError = none := by
  unfold processEvents
  dsimp only
  split
  · split <;> rfl
  · next h => exact absurd rfl h

/-- A non-empty batch skips the error-clearing branch: the final error
is the one left by executing the events. -/
theorem processEvents_cons_error (pe : OutgoingEvent × Env) (evs : List (OutgoingEvent × Env))
    (s : ManagerState) :
    (processEvents (pe :: evs) s).synchronizationError =
      ((pe :: evs).foldl (fun acc q => executeEvent q.1 q.2 acc)
        { s with synchronizationIsInProcess := true }).synchronizationError := by
  unfold processEvents
  dsimp only
  split
  · next h => exact absurd h (by simp)
  · split <;> rfl

/-- C7: a processed batch with zero actions resets the exposed
synchronization error to none upon completion; a non-empty batch never
clears an exposed error (it may replace it, but the error state stays
present). -/
theorem C7_empty_batch_clears_error (events : List (OutgoingEvent × Env)) (s : ManagerState) :
    (events = [] → (processEvents events s).synchronizationError = none) ∧
    (events ≠ [] → s.synchronizationError.isSome = true →
      (processEvents events s).synchronizationError.isSome = true) := by
  constructor
  · intro hnil
    subst hnil
    exact processEvents_nil_error s
  · intro hne herr
    cases events with
    | nil => exact absurd rfl hne
    | cons pe evs =>
        rw [processEvents_cons_error]
        exact foldl_executeEvent_keeps_error_present (pe :: evs)
          { s with synchronizationIsInProcess := true } herr

/-- C7 witness: an empty batch on a manager with a pending transient
error clears it; a singleton batch leaves an error present. -/
theorem C7_witness :
    (processEvents []
        { initialManagerState with synchronizationError := some .fileUnavailable }).synchronizationError =
      none ∧
    (processEvents [(.didFinishInitialSynchronization, { fuel := 0 })]
        { initialManagerState with synchronizationError := some .fileUnavailable }).synchronizationError.isSome =
      true :=
  ⟨(C7_empty_batch_clears_error []
      { initialManagerState with synchronizationError := some .fileUnavailable }).1 rfl,
   (C7_empty_batch_clears_error [(.didFinishInitialSynchronization, { fuel := 0 })]
      { initialManagerState with synchronizationError := some .fileUnavailable }).2
      (by simp) rfl⟩

/-! ## Claim theorems: local container actions -/

/-- C8: remove-local on an item whose local file does not exist
completes with success and leaves the directory untouched; when the
file exists (and the OS delete succeeds) the file is deleted and the
action completes with success. -/
theorem C8_remove_local_absent_is_success (item : CloudMetadataItem) (env : Env)
    (fs : List FileEntry) :
    (fs.any (fun g => g.name = relatedLocalItemName item) = false →
      removeFromTheLocalContainer item env fs = (fs, .success, false)) ∧
    (fs.any (fun g => g.name = relatedLocalItemName item) = true → env.removeOk = true →
      removeFromTheLocalContainer item env fs =
        (fs.filter (fun g => g.name ≠ relatedLocalItemName item), .success, true)) := by
  constructor
  · intro habs
    simp [removeFromTheLocalContainer, habs]
  · intro hpres hok
    simp [removeFromTheLocalContainer, hpres, hok]

/-- C8 witness: the absent case on an empty directory and the present
case on a directory holding the file. -/
theorem C8_witness :
    removeFromTheLocalContainer conflictItem conflictEnv [] = ([], .success, false) ∧
    removeFromTheLocalContainer conflictItem conflictEnv [⟨"a.kml", 33, 5⟩] =
      (([⟨"a.kml", 33, 5⟩] : List FileEntry).filter
        (fun g => g.name ≠ relatedLocalItemName conflictItem), .success, true) :=
  ⟨(C8_remove_local_absent_is_success conflictItem conflictEnv []).1 (by decide),
   (C8_remove_local_absent_is_success conflictItem conflictEnv [⟨"a.kml", 33, 5⟩]).2
      (by decide) (by decide)⟩

/-- C9: a successful create-local / update-local writes the cloud
item bytes into the local directory under the same file name and
stamps the written file with the last modification date of the cloud
item;
every other file is untouched. -/
theorem C9_write_local_same_name_and_date (item : CloudMetadataItem) (env : Env)
    (fs : List FileEntry)
    (hc : env.coordinationOk = true) (hr : env.readOk = true) (hw : env.writeOk = true) :
    writeToLocalContainer item env fs =
      (fs.filter (fun g => g.name ≠ item.fileName.fullName) ++
        [⟨item.fileName.fullName, item.content, item.lastModificationDate⟩],
       .success, true) ∧
    ∃ g, g ∈ (writeToLocalContainer item env fs).1 ∧
      g.name = item.fileName.fullName ∧ g.content = item.content ∧
      g.modificationDate = item.lastModificationDate := by
  have heq : writeToLocalContainer item env fs =
      (fs.filter (fun g => g.name ≠ item.fileName.fullName) ++
        [⟨item.fileName.fullName, item.content, item.lastModificationDate⟩],
       .success, true) := by
    simp [writeToLocalContainer, hc, hr, hw, writeFileEntry, relatedLocalItemName]
  refine ⟨heq, ⟨item.fileName.fullName, item.content, item.lastModificationDate⟩, ?_, rfl, rfl, rfl⟩
  rw [heq]
  simp

/-- C9 witness: a concrete cloud item written into a directory that
already holds an older version of the same file. -/
theorem C9_witness :
    writeToLocalContainer conflictItem conflictEnv [⟨"a.kml", 1, 1⟩, ⟨"b.kml", 2, 2⟩] =
      (([⟨"a.kml", 1, 1⟩, ⟨"b.kml", 2, 2⟩] : List FileEntry).filter
          (fun g => g.name ≠ conflictItem.fileName.fullName) ++
        [⟨conflictItem.fileName.fullName, conflictItem.content, conflictItem.lastModificationDate⟩],
       .success, true) ∧
    ∃ g, g ∈ (writeToLocalContainer conflictItem conflictEnv
        [⟨"a.kml", 1, 1⟩, ⟨"b.kml", 2, 2⟩]).1 ∧
      g.name = conflictItem.fileName.fullName ∧ g.content = conflictItem.content ∧
      g.modificationDate = conflictItem.lastModificationDate :=
  C9_write_local_same_name_and_date conflictItem conflictEnv
    [⟨"a.kml", 1, 1⟩, ⟨"b.kml", 2, 2⟩] rfl rfl rfl

/-! ## Claim theorems: trash de-duplication -/

/-- The de-duplication step leaves no entry under the item name. -/
theorem dedup_count_zero (name : String) (trash : List String)
    (hcount : trash.count name ≤ 1) :
    ((if name ∈ trash then trash.erase name else trash).count name) = 0 := by
  by_cases hmem : name ∈ trash
  · rw [if_pos hmem, List.count_erase_self]
    have h1 : 0 < trash.count name := List.count_pos_iff.mpr hmem
    omega
  · rw [if_neg hmem]
    exact List.count_eq_zero.mpr hmem

/-- One remove-cloud execution keeps at most one trash entry under the
cloud file name of the item, whatever the platform and whatever the
environment outcomes. -/
theorem trashCount_after_removeFromCloud (item : LocalMetadataItem) (env : Env)
    (cloud : List FileEntry) (trash : List String)
    (hcount : trash.count item.fileName.fullName ≤ 1) :
    ((removeFromCloudContainer item env cloud trash).2.1).count item.fileName.fullName ≤ 1 := by
  unfold removeFromCloudContainer
  dsimp only
  by_cases hf : env.fetchCloudDirOk = true
  · rw [if_pos hf]
    by_cases hm : env.isMac = true
    · rw [if_pos hm]
      by_cases hany : cloud.any (fun g => g.name = item.fileName.fullName) = true
      · rw [if_pos hany]
        by_cases ht : env.trashOk = true
        · rw [if_pos ht]; exact hcount
        · rw [if_neg ht]; exact hcount
      · rw [if_neg hany]; exact hcount
    · rw [if_neg hm]
      by_cases hd : env.dedupOk = true
      · rw [if_pos hd]
        have h0 := dedup_count_zero item.fileName.fullName trash hcount
        have hnotmem : item.fileName.fullName ∉
            (if item.fileName.fullName ∈ trash then trash.erase item.fileName.fullName
             else trash) :=
          List.count_eq_zero.mp h0
        by_cases hany : cloud.any (fun g => g.name = item.fileName.fullName) = true
        · rw [if_pos hany]
          by_cases ht : env.trashOk = true
          · rw [if_pos ht]
            dsimp only
            rw [List.count_append, h0]
            simp [trashAssignedName, hnotmem]
          · rw [if_neg ht]
            dsimp only
            rw [h0]
            omega
        · rw [if_neg hany]
          dsimp only
          rw [h0]
          omega
      · rw [if_neg hd]; exact hcount
  · rw [if_neg hf]; exact hcount

/-- C6: before trashing, any same-named entry already in the trash is
removed, so the trash ends with exactly one entry under the name; and
after any two successive removals of files mapping to the same cloud
file name (arbitrary platforms, environments and intermediate cloud
states) the trash never holds two entries with that name. -/
theorem C6_trash_dedup (item1 item2 : LocalMetadataItem) (env1 env2 : Env)
    (cloud1 cloud2 : List FileEntry) (trash : List String)
    (hsame : item2.fileName = item1.fileName)
    (hcount : trash.count item1.fileName.fullName ≤ 1) :
    ((removeFromCloudContainer item2 env2 cloud2
        (removeFromCloudContainer item1 env1 cloud1 trash).2.1).2.1).count
        item1.fileName.fullName ≤ 1 ∧
    (env1.isMac = false → env1.fetchCloudDirOk = true → env1.dedupOk = true →
      env1.trashOk = true →
      cloud1.any (fun g => g.name = item1.fileName.fullName) = true →
      (removeFromCloudContainer item1 env1 cloud1 trash).2.1 =
        (if item1.fileName.fullName ∈ trash then trash.erase item1.fileName.fullName
         else trash) ++ [item1.fileName.fullName] ∧
      ((removeFromCloudContainer item1 env1 cloud1 trash).2.1).count
        item1.fileName.fullName = 1) := by
  have h0 := dedup_count_zero item1.fileName.fullName trash hcount
  have hnotmem : item1.fileName.fullName ∉
      (if item1.fileName.fullName ∈ trash then trash.erase item1.fileName.fullName
       else trash) :=
    List.count_eq_zero.mp h0
  constructor
  · have h1 := trashCount_after_removeFromCloud item1 env1 cloud1 trash hcount
    have h2 := trashCount_after_removeFromCloud item2 env2 cloud2
      (removeFromCloudContainer item1 env1 cloud1 trash).2.1 (by rw [hsame]; exact h1)
    rwa [hsame] at h2
  · intro hm hf hd ht hany
    unfold removeFromCloudContainer
    dsimp only
    rw [if_pos hf, if_neg (by simp [hm]), if_pos hd, if_pos hany, if_pos ht]
    dsimp only
    constructor
    · simp [trashAssignedName, hnotmem]
    · rw [List.count_append, h0]
      simp [trashAssignedName, hnotmem]

/-- C6 witness: removing `a.kml` twice with a stale `a.kml` already in
the trash, on a non-macOS platform with all operations succeeding. -/
theorem C6_witness :
    ((removeFromCloudContainer initialConflictItem conflictEnv [⟨"a.kml", 1, 1⟩]
        (removeFromCloudContainer initialConflictItem conflictEnv [⟨"a.kml", 1, 1⟩]
          ["a.kml"]).2.1).2.1).count
        initialConflictItem.fileName.fullName ≤ 1 ∧
    (removeFromCloudContainer initialConflictItem conflictEnv [⟨"a.kml", 1, 1⟩]
        ["a.kml"]).2.1 =
      (if initialConflictItem.fileName.fullName ∈ ["a.kml"] then
        ["a.kml"].erase initialConflictItem.fileName.fullName
       else ["a.kml"]) ++ [initialConflictItem.fileName.fullName] ∧
    ((removeFromCloudContainer initialConflictItem conflictEnv [⟨"a.kml", 1, 1⟩]
        ["a.kml"]).2.1).count initialConflictItem.fileName.fullName = 1 := by
  have h := C6_trash_dedup initialConflictItem initialConflictItem conflictEnv conflictEnv
    [⟨"a.kml", 1, 1⟩] [⟨"a.kml", 1, 1⟩] ["a.kml"] rfl (by decide)
  exact ⟨h.1, (h.2 rfl rfl rfl rfl (by decide)).1, (h.2 rfl rfl rfl rfl (by decide)).2⟩

/-! ## Lemmas about `generateNewFileUrl` and the version sort -/

/-- The generated file name is never one that already exists in the
directory. -/
theorem generateNewFileUrl_not_mem : ∀ (fuel : Nat) (names : List String) (f : FileName)
    (b : Bool) (d : String) (g : FileName),
    generateNewFileUrl fuel names f b d = some g → g.fullName ∉ names := by
  intro fuel
  induction fuel with
  | zero =>
      intro names f b d g h
      exact absurd h (by simp [generateNewFileUrl])
  | succ n ih =>
      intro names f b d g h
      simp only [generateNewFileUrl] at h
      by_cases hmem :
          (FileName.mk (if b then nextBaseName f.base ++ "_" ++ d else nextBaseName f.base)
            f.ext).fullName ∈ names
      · rw [if_pos hmem] at h
        exact ih names _ false d g h
      · rw [if_neg hmem] at h
        injection h with h1
        subst h1
        exact hmem

/-- When the first candidate name (numeric suffix, then the device
suffix) is free, the recursion returns exactly it. -/
theorem generateNewFileUrl_first_candidate (fuel : Nat) (names : List String) (f : FileName)
    (d : String) (g : FileName)
    (h : generateNewFileUrl fuel names f true d = some g)
    (hfree : (FileName.mk (nextBaseName f.base ++ "_" ++ d) f.ext).fullName ∉ names) :
    g = ⟨nextBaseName f.base ++ "_" ++ d, f.ext⟩ := by
  cases fuel with
  | zero => exact absurd h (by simp [generateNewFileUrl])
  | succ n =>
      simp only [generateNewFileUrl, if_true] at h
      rw [if_neg hfree] at h
      injection h with h1
      exact h1.symm

/-- Inserting a version permutes the consed list. -/
theorem insertVersion_perm (v : FileVersion) (l : List FileVersion) :
    List.Perm (insertVersion v l) (v :: l) := by
  induction l with
  | nil => exact List.Perm.refl _
  | cons w ws ih =>
      unfold insertVersion
      by_cases h : versionIsNewer v w = true
      · rw [if_pos h]
      · rw [if_neg h]
        exact List.Perm.trans (List.Perm.cons w ih) (List.Perm.swap v w ws)

/-- The descending sort is a permutation of its input. -/
theorem sortVersionsDesc_perm (l : List FileVersion) :
    List.Perm (sortVersionsDesc l) l := by
  induction l with
  | nil => exact List.Perm.refl _
  | cons v vs ih =>
      exact List.Perm.trans (insertVersion_perm v (sortVersionsDesc vs))
        (List.Perm.cons v ih)

/-- When every version carries a date, the head of the descending sort
has the greatest date. -/
theorem sortVersionsDesc_head_le (vs : List FileVersion)
    (hall : ∀ v ∈ vs, v.modificationDate.isSome = true) :
    ∀ latest rest, sortVersionsDesc vs = latest :: rest →
      ∀ v ∈ vs, versionDate v ≤ versionDate latest := by
  induction vs with
  | nil =>
      intro latest rest h
      exact absurd h (by simp [sortVersionsDesc])
  | cons v vs ih =>
      intro latest rest hsort w hw
      have hv : v.modificationDate.isSome = true := hall v (List.mem_cons_self v vs)
      cases hs : sortVersionsDesc vs with
      | nil =>
          have hperm := sortVersionsDesc_perm vs
          rw [hs] at hperm
          have hvs : vs = [] := hperm.symm.eq_nil
          subst hvs
          have hone : sortVersionsDesc [v] = [v] := rfl
          rw [hone] at hsort
          injection hsort with h1 h2
          subst h1
          rcases List.mem_cons.mp hw with rfl | hw'
          · exact le_refl _
          · exact absurd hw' (List.not_mem_nil w)
      | cons l rest' =>
          have hmax' := ih (fun u hu => hall u (List.mem_cons_of_mem v hu)) l rest' hs
          have hl_mem : l ∈ vs := by
            have hperm := sortVersionsDesc_perm vs
            rw [hs] at hperm
            exact hperm.subset (List.mem_cons_self l rest')
          have hldate : l.modificationDate.isSome = true :=
            hall l (List.mem_cons_of_mem v hl_mem)
          obtain ⟨dv, hdv⟩ := Option.isSome_iff_exists.mp hv
          obtain ⟨dl, hdl⟩ := Option.isSome_iff_exists.mp hldate
          have hins : sortVersionsDesc (v :: vs) = insertVersion v (l :: rest') := by
            have : sortVersionsDesc (v :: vs) = insertVersion v (sortVersionsDesc vs) := rfl
            rw [this, hs]
          rw [hins] at hsort
          unfold insertVersion at hsort
          by_cases hn : versionIsNewer v l = true
          · rw [if_pos hn] at hsort
            injection hsort with h1 h2
            subst h1
            have hlt : dl < dv := by
              unfold versionIsNewer at hn
              rw [hdv, hdl] at hn
              exact of_decide_eq_true hn
            rcases List.mem_cons.mp hw with rfl | hw'
            · exact le_refl _
            · refine le_trans (hmax' w hw') ?_
              simp only [versionDate, hdl, hdv, Option.getD_some]
              exact le_of_lt hlt
          · rw [if_neg hn] at hsort
            injection hsort with h1 h2
            subst h1
            have hge : dv ≤ dl := by
              unfold versionIsNewer at hn
              rw [hdv, hdl] at hn
              have := of_decide_eq_false (Bool.not_eq_true _ ▸ hn)
              exact not_lt.mp this
            rcases List.mem_cons.mp hw with rfl | hw'
            · simp only [versionDate, hdv, hdl, Option.getD_some]
              exact hge
            · exact hmax' w hw'

/-! ## Claim theorems: version-conflict resolution -/

/-- C1 counterexample: with two conflict versions (content 11 at date
100, content 22 at date 200) and current on-disk content 33, the
resolution keeps only the canonical content 22 and the duplicated
current content 33 — version content 11 survives in no file, although
the claim says every non-canonical conflicting version is preserved as
a suffixed duplicate. -/
theorem C1_counterexample :
    resolveVersionsConflict conflictItem conflictEnv conflictFiles conflictVersions =
      some ([⟨"a.kml", 22, 5⟩, ⟨"a_1.kml", 33, 5⟩], [], .success, true) ∧
    conflictVersions = [("a.kml", [⟨some 100, 11⟩, ⟨some 200, 22⟩])] ∧
    (([⟨"a.kml", 22, 5⟩, ⟨"a_1.kml", 33, 5⟩] : List FileEntry).all
      fun g => g.content != 11) = true := by
  refine ⟨?_, rfl, ?_⟩ <;> decide

/-- C1 (amended): the canonical version is the conflict version with
the greatest modification date (the unique latest when the dates are
distinct); the item is replaced by the canonical content; the previous
current on-disk content — and only it — is preserved under a fresh
`_N`-suffixed name; all other conflict versions are discarded together
with the versions entry. -/
theorem C1_latest_version_wins (item : CloudMetadataItem) (env : Env)
    (files : List FileEntry) (versions : List (String × List FileVersion))
    (vs : List FileVersion) (cur : FileEntry) (target : FileName)
    (hv : (versions.find? (fun p => p.1 = item.fileName.fullName)).map (fun p => p.2) =
      some vs)
    (hcur : files.find? (fun g => g.name = item.fileName.fullName) = some cur)
    (hall : ∀ v ∈ vs, v.modificationDate.isSome = true)
    (hne : vs ≠ [])
    (hgen : generateNewFileUrl env.fuel (files.map (fun g => g.name)) item.fileName false
      env.deviceName = some target)
    (hco : env.coordinationOk = true) (hcp : env.copyOk = true) :
    ∃ latest rest,
      sortVersionsDesc vs = latest :: rest ∧
      resolveVersionsConflict item env files versions =
        some ((files ++
                [(⟨target.fullName, cur.content, cur.modificationDate⟩ : FileEntry)]).map
                (fun g => if g.name = item.fileName.fullName then
                    { g with content := latest.content } else g),
              versions.filter (fun p => p.1 ≠ item.fileName.fullName),
              .success, true) ∧
      latest ∈ vs ∧
      (∀ v ∈ vs, versionDate v ≤ versionDate latest) ∧
      ((∀ u ∈ vs, ∀ w ∈ vs, u ≠ w → versionDate u ≠ versionDate w) →
        ∀ v ∈ vs, v ≠ latest → versionDate v < versionDate latest) ∧
      target.fullName ∉ files.map (fun g => g.name) := by
  have hnm := generateNewFileUrl_not_mem env.fuel (files.map (fun g => g.name)) item.fileName
    false env.deviceName target hgen
  obtain ⟨latest, rest, hsort⟩ : ∃ l r, sortVersionsDesc vs = l :: r := by
    cases hs : sortVersionsDesc vs with
    | nil =>
        have hperm := sortVersionsDesc_perm vs
        rw [hs] at hperm
        exact absurd hperm.symm.eq_nil hne
    | cons l r => exact ⟨l, r, rfl⟩
  have hmem : latest ∈ vs := by
    have hperm := sortVersionsDesc_perm vs
    rw [hsort] at hperm
    exact hperm.subset (List.mem_cons_self latest rest)
  have hle := sortVersionsDesc_head_le vs hall latest rest hsort
  refine ⟨latest, rest, hsort, ?_, hmem, hle,
    fun hdist v hvmem hvne => lt_of_le_of_ne (hle v hvmem) (hdist v hvmem latest hmem hvne),
    hnm⟩
  simp only [resolveVersionsConflict, hv, hcur, hsort, hgen, hco, hcp, hnm, if_true,
    if_false, ite_true, ite_false]

/-- C1 witness: the amended behaviour evaluated on the concrete
conflicted `a.kml`. -/
theorem C1_witness :
    ∃ latest rest,
      sortVersionsDesc [⟨some 100, 11⟩, ⟨some 200, 22⟩] = latest :: rest ∧
      resolveVersionsConflict conflictItem conflictEnv conflictFiles conflictVersions =
        some ((conflictFiles ++
                [(⟨FileName.fullName ⟨"a_1", "kml"⟩, 33, 5⟩ : FileEntry)]).map
                (fun g => if g.name = conflictItem.fileName.fullName then
                    { g with content := latest.content } else g),
              conflictVersions.filter (fun p => p.1 ≠ conflictItem.fileName.fullName),
              .success, true) ∧
      latest ∈ [(⟨some 100, 11⟩ : FileVersion), ⟨some 200, 22⟩] ∧
      (∀ v ∈ [(⟨some 100, 11⟩ : FileVersion), ⟨some 200, 22⟩],
        versionDate v ≤ versionDate latest) ∧
      ((∀ u ∈ [(⟨some 100, 11⟩ : FileVersion), ⟨some 200, 22⟩],
          ∀ w ∈ [(⟨some 100, 11⟩ : FileVersion), ⟨some 200, 22⟩],
            u ≠ w → versionDate u ≠ versionDate w) →
        ∀ v ∈ [(⟨some 100, 11⟩ : FileVersion), ⟨some 200, 22⟩],
          v ≠ latest → versionDate v < versionDate latest) ∧
      FileName.fullName ⟨"a_1", "kml"⟩ ∉ conflictFiles.map (fun g => g.name) :=
  C1_latest_version_wins conflictItem conflictEnv conflictFiles conflictVersions
    [⟨some 100, 11⟩, ⟨some 200, 22⟩] ⟨"a.kml", 33, 5⟩ ⟨"a_1", "kml"⟩
    (by decide) (by decide) (by decide) (by decide) (by decide) rfl rfl

/-! ## Claim theorems: initial-synchronization conflict -/

/-- C2 counterexample: the copy target for `a.kml` on device `iPhone`
is `a_1_iPhone.kml` — the numeric counter `_1` is part of the new
name — not the purely device-suffixed `a_iPhone.kml` the claim
describes. -/
theorem C2_counterexample :
    resolveInitialSynchronizationConflict initialConflictItem initialConflictEnv
        initialConflictFiles =
      some (initialConflictFiles ++ [⟨"a_1_iPhone.kml", 7, 100⟩], .success) ∧
    "a_1_iPhone.kml" = "a" ++ "_1" ++ "_" ++ "iPhone" ++ "." ++ "kml" ∧
    "a_1_iPhone.kml" ≠ "a_iPhone.kml" := by
  refine ⟨?_, ?_, ?_⟩ <;> decide

/-- C2 (amended): the local file is copied to a fresh name formed by
the numeric `_N` counter policy followed by the device identifier
suffix; because the target is fresh, no existing file is ever
overwritten, and when the first candidate is free the new name is
exactly base`_N`_device.extension. -/
theorem C2_device_suffix_after_counter (item : LocalMetadataItem) (env : Env)
    (fs : List FileEntry) (target : FileName)
    (hgen : generateNewFileUrl env.fuel (fs.map (fun g => g.name)) item.fileName true
      env.deviceName = some target)
    (hcp : env.copyOk = true) :
    resolveInitialSynchronizationConflict item env fs =
      some (fs ++ [(⟨target.fullName, item.content, item.lastModificationDate⟩ : FileEntry)],
        .success) ∧
    target.fullName ∉ fs.map (fun g => g.name) ∧
    ((FileName.mk (nextBaseName item.fileName.base ++ "_" ++ env.deviceName)
        item.fileName.ext).fullName ∉ fs.map (fun g => g.name) →
      target = ⟨nextBaseName item.fileName.base ++ "_" ++ env.deviceName,
        item.fileName.ext⟩) := by
  refine ⟨?_,
    generateNewFileUrl_not_mem env.fuel (fs.map (fun g => g.name)) item.fileName true
      env.deviceName target hgen,
    fun hfree =>
      generateNewFileUrl_first_candidate env.fuel (fs.map (fun g => g.name)) item.fileName
        env.deviceName target hgen hfree⟩
  simp only [resolveInitialSynchronizationConflict, hgen, hcp, if_true, ite_true]

/-- C2 witness: the amended behaviour evaluated on the concrete
`a.kml` with device name `iPhone`. -/
theorem C2_witness :
    resolveInitialSynchronizationConflict initialConflictItem initialConflictEnv
        initialConflictFiles =
      some (initialConflictFiles ++
        [(⟨FileName.fullName ⟨"a_1_iPhone", "kml"⟩, initialConflictItem.content,
          initialConflictItem.lastModificationDate⟩ : FileEntry)], .success) ∧
    FileName.fullName ⟨"a_1_iPhone", "kml"⟩ ∉
      initialConflictFiles.map (fun g => g.name) ∧
    ((FileName.mk (nextBaseName initialConflictItem.fileName.base ++ "_" ++
        initialConflictEnv.deviceName) initialConflictItem.fileName.ext).fullName ∉
        initialConflictFiles.map (fun g => g.name) →
      (⟨"a_1_iPhone", "kml"⟩ : FileName) =
        ⟨nextBaseName initialConflictItem.fileName.base ++ "_" ++
          initialConflictEnv.deviceName, initialConflictItem.fileName.ext⟩) :=
  C2_device_suffix_after_counter initialConflictItem initialConflictEnv initialConflictFiles
    ⟨"a_1_iPhone", "kml"⟩ (by decide) rfl

end OrganicMaps
